import Mathlib

/-!
Shallow embedding of the stork resource collector
(`pkg/resourcecollector`) and the `BackupLocation` credential-merge logic
(`pkg/apis/stork/v1alpha1/backuplocation.go`), together with proofs of the
claims about them.

Generic (unstructured) objects are modelled as nested association maps of
`Value`s; the external collaborators (discovery helper, dynamic lister,
typed k8s lookups, the volume driver's ownership predicate) are modelled as
a record of deterministic functions, so a whole `GetResources` run is a
pure computation.
-/

/-- A JSON-like value of an unstructured object's content
(`map[string]interface{}` in Go). Only the shapes exercised by the
collector are needed: strings, nested maps, and arrays. -/
inductive Value where
  | str (s : String)
  | map (fields : List (String × Value))
  | arr (elems : List Value)

/-- Delete every binding of key `k` (Go `delete(m, k)`; Go maps have unique
keys, so at most one binding is ever present). -/
def eraseKey (m : List (String × Value)) (k : String) : List (String × Value) :=
  m.filter (fun kv => !(kv.1 == k))

/-- Overwrite the binding of key `k` with `v` (Go `m[k] = v` for a key that
is already present). -/
def setKey : List (String × Value) → String → Value → List (String × Value)
  | [], _, _ => []
  | (a, w) :: rest, k, v =>
    match a == k with
    | true => (k, v) :: setKey rest k v
    | false => (a, w) :: setKey rest k v

/-- Split a list of characters at a separator character. Mirror of Go's
`strings.Split` (on a one-character separator), written structurally so the
kernel can evaluate it. -/
def splitOnCharAux (c : Char) : List Char → List Char → List String
  | [], acc => [String.mk acc.reverse]
  | x :: xs, acc =>
    if x == c then String.mk acc.reverse :: splitOnCharAux c xs []
    else splitOnCharAux c xs (x :: acc)

/-- `strings.Split(s, c)` for a one-character separator. -/
def splitOnChar (c : Char) (s : String) : List String :=
  splitOnCharAux c s.data []

/-- Go `strings.TrimSuffix(s, "\n")`: drop one trailing newline if present. -/
def trimNewlineSuffix (s : String) : String :=
  match s.data.reverse with
  | '\n' :: rest => String.mk rest.reverse
  | _ => s

/-- Walk a dot-separated path (already split into its parts) through nested
maps; mirror of `collections.GetValue` from heptio/ark. -/
def getValueParts : List String → List (String × Value) → Except String Value
  | [], _ => .error "path must not be empty"
  | [k], m =>
    match m.lookup k with
    | some v => .ok v
    | none => .error ("key " ++ k ++ " not found")
  | k :: rest, m =>
    match m.lookup k with
    | none => .error ("key " ++ k ++ " not found")
    | some (.map sub) => getValueParts rest sub
    | some _ => .error ("value at key " ++ k ++ " is not a map")

/-- `collections.GetValue(root, path)` from heptio/ark. -/
def getValue (m : List (String × Value)) (path : String) : Except String Value :=
  if path == "" then .error "path must not be empty"
  else getValueParts (splitOnChar '.' path) m

/-- `collections.GetString(root, path)` from heptio/ark. -/
def getString (m : List (String × Value)) (path : String) : Except String String :=
  match getValue m path with
  | .error e => .error e
  | .ok (.str s) => .ok s
  | .ok _ => .error ("value at path " ++ path ++ " is not a string")

/-- `collections.GetMap(root, path)` from heptio/ark. -/
def getMap (m : List (String × Value)) (path : String) : Except String (List (String × Value)) :=
  match getValue m path with
  | .error e => .error e
  | .ok (.map sub) => .ok sub
  | .ok _ => .error ("value at path " ++ path ++ " is not a map")

/-- An unstructured object (`runtime.Unstructured`): just its content map. -/
structure KObj where
  content : List (String × Value)

/-- Read a nested string, returning `none` when absent or not a string
(the behaviour of the unstructured accessors' defaulting reads). -/
def readString (m : List (String × Value)) : List String → Option String
  | [] => none
  | [k] =>
    match m.lookup k with
    | some (.str s) => some s
    | _ => none
  | k :: rest =>
    match m.lookup k with
    | some (.map sub) => readString sub rest
    | _ => none

/-- `meta.TypeAccessor(o).GetKind()`: top-level `kind`, empty if absent. -/
def KObj.kindOf (o : KObj) : String :=
  (readString o.content ["kind"]).getD ""

/-- `meta.Accessor(o).GetName()`: `metadata.name`, empty if absent. -/
def KObj.nameOf (o : KObj) : String :=
  (readString o.content ["metadata", "name"]).getD ""

/-- `meta.Accessor(o).GetUID()`: `metadata.uid`, empty if absent. -/
def KObj.uidOf (o : KObj) : String :=
  (readString o.content ["metadata", "uid"]).getD ""

/-- A typed `v1.PersistentVolumeClaim` as returned by the typed lookup
(`k8s.Instance().GetPersistentVolumeClaim`): only the fields the collector
reads. -/
structure TypedPVC where
  name : String
  ns : String
  phase : String
  labels : List (String × String)

/-- A role-binding subject (`rbacv1.Subject`). -/
structure Subject where
  kind : String
  name : String
  ns : String

/-- A typed `ClusterRoleBinding`: the fields the collector reads. -/
structure TypedCRB where
  name : String
  roleRefName : String
  subjects : List Subject

/-- `metav1.APIResource` as delivered by the discovery helper. -/
structure APIResource where
  name : String
  kind : String
  namespaced : Bool
  group : String

/-- One discovery group: its `GroupVersion` string and its resources
(an element of `discoveryHelper.Resources()`). -/
structure APIGroup where
  groupVersion : String
  resources : List APIResource

/-- `schema.ParseGroupVersion`: `""` or `"/"` parse to empty group/version,
`"v1"` to `("", "v1")`, `"g/v"` to `("g", "v")`, anything with more
separators is an error. -/
def ParseGroupVersion (gv : String) : Except String (String × String) :=
  if gv == "" || gv == "/" then .ok ("", "")
  else
    match splitOnChar '/' gv with
    | [v] => .ok ("", v)
    | [g, v] => .ok (g, v)
    | _ => .error ("unexpected GroupVersion string: " ++ gv)

/-- The record of external collaborators a `ResourceCollector` is bound to:
discovery refresh and groups, the dynamic lister, the typed k8s lookups and
the volume driver's ownership predicate. Deterministic functions stand in
for the network calls. -/
structure Env where
  refresh : Except String Unit
  groups : List APIGroup
  list : (String × String) → String → Option String → String → Except String (List KObj)
  getPVC : String → String → Except String TypedPVC
  getCRB : String → Except String TypedCRB
  listCRBs : Except String (List TypedCRB)
  ownsPVC : TypedPVC → Bool

/-- `resourceToBeCollected`: the fixed allow-list of kinds, with the
`extensions`-group `Deployment` excluded. -/
def resourceToBeCollected (r : APIResource) : Bool :=
  if r.group == "extensions" && r.kind == "Deployment" then false
  else
    r.kind == "PersistentVolumeClaim" ||
    r.kind == "PersistentVolume" ||
    r.kind == "Deployment" ||
    r.kind == "StatefulSet" ||
    r.kind == "ConfigMap" ||
    r.kind == "Service" ||
    r.kind == "Secret" ||
    r.kind == "DaemonSet" ||
    r.kind == "ServiceAccount" ||
    r.kind == "ClusterRole" ||
    r.kind == "ClusterRoleBinding"

/-- `labels.AreLabelsInWhiteList(lbls, whitelist)`: vacuously true when the
whitelist is empty, otherwise every pair of `lbls` must appear in
`whitelist` with an equal value. -/
def AreLabelsInWhiteList (lbls whitelist : List (String × String)) : Bool :=
  if whitelist.isEmpty then true
  else lbls.all (fun kv =>
    match whitelist.lookup kv.1 with
    | some v => v == kv.2
    | none => false)

/-- Lexicographic strict order on character lists (the order
`sort.StringSlice` uses, byte-wise, restricted to the ASCII keys in play). -/
def charListLt : List Char → List Char → Bool
  | [], [] => false
  | [], _ :: _ => true
  | _ :: _, [] => false
  | a :: as, b :: bs => if a < b then true else if b < a then false else charListLt as bs

/-- Lexicographic strict order on strings. -/
def strLt (a b : String) : Bool :=
  charListLt a.data b.data

/-- Insert a string into a sorted list of strings, keeping it sorted. -/
def insertSorted (x : String) : List String → List String
  | [] => [x]
  | y :: ys => if strLt x y then x :: y :: ys else y :: insertSorted x ys

/-- `labels.Set(m).String()`: the `"k=v"` entries, sorted, joined by `","`. -/
def labelsSetString (sels : List (String × String)) : String :=
  String.intercalate "," ((sels.map (fun kv => kv.1 ++ "=" ++ kv.2)).foldr insertSorted [])

/-- `objectToBeCollected`: the per-kind inclusion predicate, including the
shared dedup check against `seen` (the Go `resourceMap`). -/
def objectToBeCollected (env : Env) (sels : List (String × String))
    (seen : List String) (o : KObj) (ns : String) : Except String Bool :=
  if seen.contains o.uidOf then .ok false
  else if o.kindOf == "Service" then
    if o.nameOf == "kubernetes" then .ok false else .ok true
  else if o.kindOf == "PersistentVolumeClaim" then
    match env.getPVC o.nameOf ns with
    | .error e => .error e
    | .ok pvc =>
      if pvc.phase != "Bound" then .ok false
      else if !(env.ownsPVC pvc) then .ok false
      else .ok true
  else if o.kindOf == "PersistentVolume" then
    match getString o.content "status.phase" with
    | .error e => .error e
    | .ok phase =>
      if phase != "Bound" then .ok false
      else
        match getString o.content "spec.claimRef.name" with
        | .error e => .error e
        | .ok pvcName =>
          if pvcName == "" then .ok false
          else
            match getString o.content "spec.claimRef.namespace" with
            | .error e => .error e
            | .ok pvcNamespace =>
              if pvcNamespace != ns then .ok false
              else
                match env.getPVC pvcName pvcNamespace with
                | .error e => .error e
                | .ok pvc =>
                  if !(env.ownsPVC pvc) then .ok false
                  else if pvc.labels.isEmpty && !sels.isEmpty then .ok false
                  else if !(AreLabelsInWhiteList sels pvc.labels) then .ok false
                  else .ok true
  else if o.kindOf == "ClusterRoleBinding" then
    match env.getCRB o.nameOf with
    | .error e => .error e
    | .ok crb => .ok (crb.subjects.any (fun s => s.ns == ns))
  else if o.kindOf == "ClusterRole" then
    match env.listCRBs with
    | .error e => .error e
    | .ok crbs =>
      .ok (crbs.any (fun crb =>
        crb.roleRefName == o.nameOf && crb.subjects.any (fun s => s.ns == ns)))
  else if o.kindOf == "ServiceAccount" then
    if o.nameOf == "default" then .ok false else .ok true
  else .ok true

/-- A record of one dynamic-client list call made by the collection loop:
the group/version, resource plural name and kind it targeted, the
namespace argument (`none` for cluster-scoped listings) and the label
selector string passed in the list options. -/
structure ListCall where
  group : String
  version : String
  resourceName : String
  resourceKind : String
  ns : Option String
  selector : String
deriving DecidableEq

/-- The namespace argument of a list call: only namespaced resources are
listed through a namespaced client. -/
def nsArgFor (r : APIResource) (ns : String) : Option String :=
  if r.namespaced then some ns else none

/-- The selector string of a list call: PVs don't get the labels of their
PVCs, so their listing carries the empty selector. -/
def selectorFor (r : APIResource) (sels : List (String × String)) : String :=
  if r.kind != "PersistentVolume" then labelsSetString sels else ""

/-- The per-object inner loop of `GetResources`: run the inclusion
predicate, accumulate included objects and mark their uids seen. A
predicate error is wrapped and aborts. -/
def processObjects (env : Env) (sels : List (String × String)) (ns : String) :
    List KObj → List String → List KObj → Except String (List String × List KObj)
  | [], seen, acc => .ok (seen, acc)
  | o :: rest, seen, acc =>
    match objectToBeCollected env sels seen o ns with
    | .error e => .error ("Error processing object: " ++ e)
    | .ok false => processObjects env sels ns rest seen acc
    | .ok true => processObjects env sels ns rest (o.uidOf :: seen) (acc ++ [o])

/-- The per-namespace loop of `GetResources` for one resource kind: list
(namespaced when the kind is namespaced, with the kind's selector), then
process the returned objects. The list calls made are logged. -/
def processNamespaces (env : Env) (sels : List (String × String))
    (gv : String × String) (r : APIResource) :
    List String → List String → List KObj → List ListCall →
    Except String (List String × List KObj × List ListCall)
  | [], seen, acc, log => .ok (seen, acc, log)
  | ns :: rest, seen, acc, log =>
    match env.list gv r.name (nsArgFor r ns) (selectorFor r sels) with
    | .error e => .error e
    | .ok objs =>
      match processObjects env sels ns objs seen acc with
      | .error e => .error e
      | .ok (seen', acc') =>
        processNamespaces env sels gv r rest seen' acc'
          (log ++ [⟨gv.1, gv.2, r.name, r.kind, nsArgFor r ns, selectorFor r sels⟩])

/-- The per-resource loop of `GetResources` within one group: skip kinds
outside the allow-list, then iterate the requested namespaces. -/
def processResources (env : Env) (sels : List (String × String))
    (nss : List String) (gv : String × String) :
    List APIResource → List String → List KObj → List ListCall →
    Except String (List String × List KObj × List ListCall)
  | [], seen, acc, log => .ok (seen, acc, log)
  | r :: rest, seen, acc, log =>
    if resourceToBeCollected r then
      match processNamespaces env sels gv r nss seen acc log with
      | .error e => .error e
      | .ok (seen', acc', log') => processResources env sels nss gv rest seen' acc' log'
    else processResources env sels nss gv rest seen acc log

/-- One iteration of the group loop of `GetResources`: parse the group
version, skip the legacy `extensions` group, and process the group's
resources with a freshly created `seen` map (`resourceMap` is allocated
inside the group loop in the source). -/
def processGroup (env : Env) (sels : List (String × String)) (nss : List String)
    (g : APIGroup) (acc : List KObj) (log : List ListCall) :
    Except String (List KObj × List ListCall) :=
  match ParseGroupVersion g.groupVersion with
  | .error e => .error e
  | .ok gv =>
    if gv.1 == "extensions" then .ok (acc, log)
    else
      match processResources env sels nss gv g.resources [] acc log with
      | .error e => .error e
      | .ok (_, acc', log') => .ok (acc', log')

/-- The group loop of `GetResources`. -/
def foldGroups (env : Env) (sels : List (String × String)) (nss : List String) :
    List APIGroup → List KObj → List ListCall →
    Except String (List KObj × List ListCall)
  | [], acc, log => .ok (acc, log)
  | g :: rest, acc, log =>
    match processGroup env sels nss g acc log with
    | .error e => .error e
    | .ok (acc', log') => foldGroups env sels nss rest acc' log'

/-- `GetResources` instrumented with the log of list calls it made. -/
def getResourcesTraced (env : Env) (nss : List String)
    (sels : List (String × String)) :
    Except String (List KObj × List ListCall) :=
  match env.refresh with
  | .error e => .error e
  | .ok _ => foldGroups env sels nss env.groups [] []

/-- `ResourceCollector.GetResources(namespaces, labelSelectors)`. -/
def GetResources (env : Env) (nss : List String)
    (sels : List (String × String)) : Except String (List KObj) :=
  (getResourcesTraced env nss sels).map Prod.fst

/-- `preparePVResource`: drop the claim reference and storage class from
the PV's spec. -/
def preparePVResource (o : KObj) : Except String KObj :=
  match getMap o.content "spec" with
  | .error e => .error e
  | .ok spec =>
    .ok ⟨setKey o.content "spec" (.map (eraseKey (eraseKey spec "claimRef") "storageClassName"))⟩

/-- `prepareServiceResource`: drop the assigned cluster IP unless the
service is headless (`clusterIP == "None"`). -/
def prepareServiceResource (o : KObj) : Except String KObj :=
  match getMap o.content "spec" with
  | .error e => .error e
  | .ok spec =>
    match getString spec "clusterIP" with
    | .ok ip =>
      if ip != "None" then .ok ⟨setKey o.content "spec" (.map (eraseKey spec "clusterIP"))⟩
      else .ok o
    | .error _ => .ok o

/-- Membership in the metadata whitelist kept by `prepareResources`. -/
def metadataWhitelisted (k : String) : Bool :=
  k == "name" || k == "namespace" || k == "labels" || k == "annotations"

/-- The kind dispatch of `prepareResources` (the `switch` on the object's
kind): PVs and Services get their specific rewrite, everything else is
untouched. -/
def prepareKindSpecific (o : KObj) : Except String KObj :=
  if o.kindOf == "PersistentVolume" then preparePVResource o
  else if o.kindOf == "Service" then prepareServiceResource o
  else .ok o

/-- The per-object body of `prepareResources`: delete `status`, apply the
kind-specific rewrite, then drop every metadata field outside the
whitelist. -/
def prepareObject (o : KObj) : Except String KObj :=
  match prepareKindSpecific ⟨eraseKey o.content "status"⟩ with
  | .error e => .error e
  | .ok o2 =>
    match getMap o2.content "metadata" with
    | .error e => .error e
    | .ok md =>
      .ok ⟨setKey o2.content "metadata" (.map (md.filter (fun kv => metadataWhitelisted kv.1)))⟩

/-- `prepareResources`: the sanitization pass over the collected set (the
source mutates the objects in place; the embedding returns the sanitized
list). -/
def prepareResources : List KObj → Except String (List KObj)
  | [] => .ok []
  | o :: rest =>
    match prepareObject o with
    | .error e => .error e
    | .ok o' =>
      match prepareResources rest with
      | .error e => .error e
      | .ok rest' => .ok (o' :: rest')

/-- `S3Config` from the backuplocation API types. -/
structure S3Config where
  endpoint : String
  accessKeyID : String
  secretAccessKey : String
  region : String
deriving DecidableEq

/-- `AzureConfig` from the backuplocation API types. -/
structure AzureConfig where
  storageAccountName : String
  storageAccountKey : String
deriving DecidableEq

/-- `GoogleConfig` from the backuplocation API types. -/
structure GoogleConfig where
  projectID : String
  accountKey : String
deriving DecidableEq

/-- `BackupLocationItem`: the spec of a backup location. The
`BackupLocationType` constants are the strings `"s3"`, `"azure"`,
`"google"`. -/
structure BackupLocationItem where
  type : String
  path : String
  s3Config : Option S3Config
  azureConfig : Option AzureConfig
  googleConfig : Option GoogleConfig
  secretConfig : String
deriving DecidableEq

/-- `BackupLocation`: object metadata (only the namespace and name are
read by the merge code) plus its location spec. -/
structure BackupLocation where
  name : String
  ns : String
  location : BackupLocationItem
deriving DecidableEq

/-- A `v1.Secret` as fetched by the merge code: its `Data` map (byte-slice
values modelled as strings). -/
structure KubeSecret where
  data : List (String × String)

/-- The kubernetes client used by `UpadteFromSecret`: namespace and name to
secret. -/
structure KubeClient where
  getSecret : String → String → Except String KubeSecret

/-- The nil-defaulting of `bl.Location.S3Config` done at the top of
`getMergedS3Config`: a missing config gets the default endpoint and
region. -/
def baseS3Config : Option S3Config → S3Config
  | none =>
    { endpoint := "s3.amazonaws.com", accessKeyID := "", secretAccessKey := "",
      region := "us-east-1" }
  | some c => c

/-- `getMergedS3Config`: default the config if absent, fetch the secret
named by `SecretConfig` from the backup location's namespace, and overlay
the keys present in the secret's data. As in the source, the value of the
`"region"` key is assigned into the `SecretAccessKey` field. -/
def getMergedS3Config (client : KubeClient) (bl : BackupLocation) :
    Except String BackupLocation :=
  let cfg := baseS3Config bl.location.s3Config
  if bl.location.secretConfig != "" then
    match client.getSecret bl.ns bl.location.secretConfig with
    | .error e => .error ("error getting secretConfig for backupLocation: " ++ e)
    | .ok secret =>
      let cfg := match secret.data.lookup "endpoint" with
        | some v => { cfg with endpoint := trimNewlineSuffix v }
        | none => cfg
      let cfg := match secret.data.lookup "accessKeyID" with
        | some v => { cfg with accessKeyID := trimNewlineSuffix v }
        | none => cfg
      let cfg := match secret.data.lookup "secretAccessKey" with
        | some v => { cfg with secretAccessKey := trimNewlineSuffix v }
        | none => cfg
      let cfg := match secret.data.lookup "region" with
        | some v => { cfg with secretAccessKey := trimNewlineSuffix v }
        | none => cfg
      .ok { bl with location := { bl.location with s3Config := some cfg } }
  else
    .ok { bl with location := { bl.location with s3Config := some cfg } }

/-- `getMergedAzureConfig`. -/
def getMergedAzureConfig (client : KubeClient) (bl : BackupLocation) :
    Except String BackupLocation :=
  let cfg := (bl.location.azureConfig).getD { storageAccountName := "", storageAccountKey := "" }
  if bl.location.secretConfig != "" then
    match client.getSecret bl.ns bl.location.secretConfig with
    | .error e => .error ("error getting secretConfig for backupLocation: " ++ e)
    | .ok secret =>
      let cfg := match secret.data.lookup "storageAccountName" with
        | some v => { cfg with storageAccountName := trimNewlineSuffix v }
        | none => cfg
      let cfg := match secret.data.lookup "storageAccountKey" with
        | some v => { cfg with storageAccountKey := trimNewlineSuffix v }
        | none => cfg
      .ok { bl with location := { bl.location with azureConfig := some cfg } }
  else
    .ok { bl with location := { bl.location with azureConfig := some cfg } }

/-- `getMergedGoogleConfig`. -/
def getMergedGoogleConfig (client : KubeClient) (bl : BackupLocation) :
    Except String BackupLocation :=
  let cfg := (bl.location.googleConfig).getD { projectID := "", accountKey := "" }
  if bl.location.secretConfig != "" then
    match client.getSecret bl.ns bl.location.secretConfig with
    | .error e => .error ("error getting secretConfig for backupLocation: " ++ e)
    | .ok secret =>
      let cfg := match secret.data.lookup "projectID" with
        | some v => { cfg with projectID := trimNewlineSuffix v }
        | none => cfg
      let cfg := match secret.data.lookup "accountKey" with
        | some v => { cfg with accountKey := trimNewlineSuffix v }
        | none => cfg
      .ok { bl with location := { bl.location with googleConfig := some cfg } }
  else
    .ok { bl with location := { bl.location with googleConfig := some cfg } }

/-- `BackupLocation.UpadteFromSecret` (name as in the source): no-op when
no secret is configured, then dispatch on the location type. -/
def UpadteFromSecret (client : KubeClient) (bl : BackupLocation) :
    Except String BackupLocation :=
  if bl.location.secretConfig == "" then .ok bl
  else if bl.location.type == "s3" then getMergedS3Config client bl
  else if bl.location.type == "azure" then getMergedAzureConfig client bl
  else if bl.location.type == "google" then getMergedGoogleConfig client bl
  else .error ("Invalid BackupLocation type " ++ bl.location.type)

/-- The cluster IP field of a (service) object: the value bound to
`clusterIP` in its `spec`, if any. -/
def clusterIPField (o : KObj) : Option Value :=
  match getMap o.content "spec" with
  | .ok spec => spec.lookup "clusterIP"
  | .error _ => none

/-- Invariant relating a stretch of the collection loop to its dedup state:
the newly appended objects have pairwise-distinct uids, none of them was
seen before the stretch, all of them are seen after it, and the seen set
only grows. -/
def NewObjsOK (seen seen' : List String) (new : List KObj) : Prop :=
  (new.map KObj.uidOf).Nodup ∧
  (∀ u, u ∈ seen → u ∈ seen') ∧
  ∀ o ∈ new, o.uidOf ∈ seen' ∧ o.uidOf ∉ seen

/-- A `ConfigMap` kind descriptor, used by the concrete runs below. -/
def resCM : APIResource := ⟨"configmaps", "ConfigMap", true, ""⟩

/-- A concrete ConfigMap object with uid `u1`. -/
def objCM : KObj :=
  ⟨[("kind", .str "ConfigMap"),
    ("metadata", .map [("name", .str "cm1"), ("namespace", .str "ns1"),
      ("uid", .str "u1")])]⟩

/-- An environment whose discovery reports the ConfigMap kind under two
different group/versions, both listings returning the same object. -/
def envDup : Env :=
  { refresh := .ok ()
    groups := [⟨"g1/v1", [resCM]⟩, ⟨"g2/v1", [resCM]⟩]
    list := fun _ _ _ _ => .ok [objCM]
    getPVC := fun _ _ => .error "not found"
    getCRB := fun _ => .error "not found"
    listCRBs := .ok []
    ownsPVC := fun _ => false }

/-- An environment whose discovery refresh fails. -/
def envRefreshFail : Env :=
  { refresh := .error "the server is unreachable"
    groups := []
    list := fun _ _ _ _ => .ok []
    getPVC := fun _ _ => .error "not found"
    getCRB := fun _ => .error "not found"
    listCRBs := .ok []
    ownsPVC := fun _ => false }

/-- A concrete Bound claim owned by the driver, labelled `{app: db}`. -/
def pvcDataDb : TypedPVC := ⟨"data-pvc", "ns1", "Bound", [("app", "db")]⟩

/-- A concrete PV object bound to `ns1/data-pvc`. -/
def objPV : KObj :=
  ⟨[("kind", .str "PersistentVolume"),
    ("metadata", .map [("name", .str "pv1"), ("uid", .str "u-pv1")]),
    ("spec", .map [("claimRef", .map [("name", .str "data-pvc"),
      ("namespace", .str "ns1")]), ("storageClassName", .str "fast")]),
    ("status", .map [("phase", .str "Bound")])]⟩

/-- A concrete PVC object named `data-pvc`. -/
def objPVC : KObj :=
  ⟨[("kind", .str "PersistentVolumeClaim" ),
    ("metadata", .map [("name", .str "data-pvc"), ("namespace", .str "ns1"),
      ("uid", .str "u-pvc1")])]⟩

/-- A concrete ClusterRoleBinding object named `crb1`. -/
def objCRB : KObj :=
  ⟨[("kind", .str "ClusterRoleBinding"),
    ("metadata", .map [("name", .str "crb1"), ("uid", .str "u-crb1")])]⟩

/-- The typed ClusterRoleBinding `crb1` with subjects in `ns1` and `ns3`. -/
def crb1 : TypedCRB :=
  ⟨"crb1", "role1", [⟨"ServiceAccount", "sa1", "ns1"⟩, ⟨"ServiceAccount", "sa3", "ns3"⟩]⟩

/-- An environment serving the typed claim `data-pvc` and binding `crb1`;
the driver owns every claim. -/
def envTyped : Env :=
  { refresh := .ok ()
    groups := []
    list := fun _ _ _ _ => .ok []
    getPVC := fun name ns =>
      if name == "data-pvc" && ns == "ns1" then .ok pvcDataDb else .error "not found"
    getCRB := fun name => if name == "crb1" then .ok crb1 else .error "not found"
    listCRBs := .ok [crb1]
    ownsPVC := fun _ => true }

/-- A concrete headless Service object (`clusterIP: "None"`). -/
def objSvcHeadless : KObj :=
  ⟨[("kind", .str "Service"),
    ("metadata", .map [("name", .str "svc1"), ("uid", .str "u-svc1")]),
    ("spec", .map [("clusterIP", .str "None"), ("type", .str "ClusterIP")]),
    ("status", .map [("loadBalancer", .map [])])]⟩

/-- A concrete Service object with an assigned cluster IP. -/
def objSvcClusterIP : KObj :=
  ⟨[("kind", .str "Service"),
    ("metadata", .map [("name", .str "svc2"), ("uid", .str "u-svc2"),
      ("resourceVersion", .str "42"), ("labels", .map [("app", .str "db")])]),
    ("spec", .map [("clusterIP", .str "10.0.0.7")]),
    ("status", .map [])]⟩

/-- The sanitized form of `objSvcClusterIP`: status gone, cluster IP gone,
metadata reduced to name and labels. -/
def objSvcPrepared : KObj :=
  ⟨[("kind", .str "Service"),
    ("metadata", .map [("name", .str "svc2"), ("labels", .map [("app", .str "db")])]),
    ("spec", .map [])]⟩

/-- A concrete backup location of type s3 with a secret configured and no
inline config. -/
def blS3 : BackupLocation :=
  ⟨"bl1", "ns1",
    { type := "s3", path := "bucket", s3Config := none, azureConfig := none,
      googleConfig := none, secretConfig := "s3-creds" }⟩

/-- A concrete backup location of type s3 with no secret configured. -/
def blNoSecret : BackupLocation :=
  ⟨"bl2", "ns1",
    { type := "s3", path := "bucket", s3Config := none, azureConfig := none,
      googleConfig := none, secretConfig := "" }⟩

/-- The secret `s3-creds` carrying a `region` key. -/
def secretS3 : KubeSecret :=
  ⟨[("endpoint", "minio.local\n"), ("region", "eu-west-3\n")]⟩

/-- A client serving `s3-creds` in `ns1`. -/
def clientS3 : KubeClient :=
  ⟨fun ns name => if ns == "ns1" && name == "s3-creds" then .ok secretS3
    else .error "secret not found"⟩

example : splitOnChar '.' "status.phase" = ["status", "phase"] := rfl
example : splitOnChar '.' "clusterIP" = ["clusterIP"] := rfl
example : ParseGroupVersion "apps/v1" = .ok ("apps", "v1") := rfl
example : ParseGroupVersion "v1" = .ok ("", "v1") := rfl
example : labelsSetString [] = "" := rfl
example : labelsSetString [("b", "2"), ("a", "1")] = "a=1,b=2" := rfl
example :
    (GetResources envDup ["ns1"] []).map (fun os => (os.map KObj.uidOf).count "u1") =
      .ok 2 := rfl
example : objectToBeCollected envTyped [("app", "db")] [] objPV "ns1" = .ok true := rfl
example : objectToBeCollected envTyped [("app", "web")] [] objPV "ns1" = .ok false := rfl
example : objectToBeCollected envTyped [] [] objPV "ns2" = .ok false := rfl
example : objectToBeCollected envTyped [] [] objPVC "ns1" = .ok true := rfl
example : objectToBeCollected envTyped [] [] objCRB "ns2" = .ok false := rfl
example : objectToBeCollected envTyped [] [] objCRB "ns1" = .ok true := rfl
example : prepareServiceResource objSvcHeadless =
    .ok ⟨objSvcHeadless.content⟩ := rfl

/-- C10: for every BackupLocation whose `Location.SecretConfig` is the
empty string, `UpadteFromSecret` returns success and leaves every field of
the BackupLocation unchanged, regardless of the `Location.Type` value. -/
theorem UpadteFromSecret_noop_without_secret (client : KubeClient)
    (bl : BackupLocation) (h : bl.location.secretConfig = "") :
    UpadteFromSecret client bl = .ok bl := by
  simp [UpadteFromSecret, h]

/-- Witness for C10 at a concrete backup location. -/
theorem UpadteFromSecret_noop_witness :
    blNoSecret.location.secretConfig = "" ∧
      UpadteFromSecret clientS3 blNoSecret = .ok blNoSecret :=
  ⟨rfl, UpadteFromSecret_noop_without_secret clientS3 blNoSecret rfl⟩

/-- C5: in the S3 secret-merge path, when the resolved secret's data
contains a `region` key, its value is assigned into the secret-access-key
field of the S3 config, and the region field is left unchanged by the
merge (it keeps the value it had after nil-defaulting). -/
theorem getMergedS3Config_region_overwrites_secretAccessKey
    (client : KubeClient) (bl : BackupLocation) (secret : KubeSecret) (v : String)
    (hsc : bl.location.secretConfig ≠ "")
    (hget : client.getSecret bl.ns bl.location.secretConfig = .ok secret)
    (hregion : secret.data.lookup "region" = some v) :
    ∃ cfg, getMergedS3Config client bl =
        .ok { bl with location := { bl.location with s3Config := some cfg } } ∧
      cfg.secretAccessKey = trimNewlineSuffix v ∧
      cfg.region = (baseS3Config bl.location.s3Config).region := by
  simp only [getMergedS3Config, hget, hregion]
  rw [if_pos (by simpa using hsc)]
  cases he : secret.data.lookup "endpoint" <;>
    cases ha : secret.data.lookup "accessKeyID" <;>
      cases hs : secret.data.lookup "secretAccessKey" <;>
        exact ⟨_, rfl, rfl, rfl⟩

/-- Witness for C5 at a concrete backup location, client and secret. -/
theorem getMergedS3Config_region_witness :
    blS3.location.secretConfig ≠ "" ∧
      clientS3.getSecret blS3.ns blS3.location.secretConfig = .ok secretS3 ∧
      secretS3.data.lookup "region" = some "eu-west-3\n" ∧
      ∃ cfg, getMergedS3Config clientS3 blS3 =
          .ok { blS3 with location := { blS3.location with s3Config := some cfg } } ∧
        cfg.secretAccessKey = trimNewlineSuffix "eu-west-3\n" ∧
        cfg.region = (baseS3Config blS3.location.s3Config).region :=
  ⟨by decide, rfl, rfl,
    getMergedS3Config_region_overwrites_secretAccessKey clientS3 blS3 secretS3
      "eu-west-3\n" (by decide) rfl rfl⟩

theorem lookup_eraseKey_self (m : List (String × Value)) (k : String) :
    (eraseKey m k).lookup k = none := by
  induction m with
  | nil => rfl
  | cons hd tl ih =>
    by_cases h : hd.1 = k
    · simpa [eraseKey, List.filter, h] using ih
    · simpa [eraseKey, List.filter, beq_false_of_ne h, List.lookup,
        beq_false_of_ne (Ne.symm h)] using ih

theorem lookup_eraseKey_ne (m : List (String × Value)) (k k' : String) (h : k' ≠ k) :
    (eraseKey m k).lookup k' = m.lookup k' := by
  induction m with
  | nil => rfl
  | cons hd tl ih =>
    by_cases hh : hd.1 = k
    · have h1 : eraseKey (hd :: tl) k = eraseKey tl k := by
        simp [eraseKey, List.filter, hh]
      have h2 : (k' == hd.1) = false := beq_false_of_ne (fun he => h (hh ▸ he))
      rw [h1, ih]
      simp [List.lookup, h2]
    · have h1 : eraseKey (hd :: tl) k = hd :: eraseKey tl k := by
        simp [eraseKey, List.filter, beq_false_of_ne hh]
      rw [h1]
      by_cases he : k' = hd.1
      · simp [List.lookup, he]
      · simp [List.lookup, beq_false_of_ne he, ih]

theorem lookup_setKey_self (m : List (String × Value)) (k : String) (v w : Value)
    (h : m.lookup k = some w) : (setKey m k v).lookup k = some v := by
  induction m with
  | nil => simp [List.lookup] at h
  | cons hd tl ih =>
    obtain ⟨a, b⟩ := hd
    by_cases hh : a = k
    · simp [setKey, hh, List.lookup]
    · rw [List.lookup] at h
      simp only [beq_false_of_ne (Ne.symm hh)] at h
      simp [setKey, beq_false_of_ne hh, List.lookup, beq_false_of_ne (Ne.symm hh), ih h]

theorem lookup_setKey_ne (m : List (String × Value)) (k k' : String) (v : Value)
    (h : k' ≠ k) : (setKey m k v).lookup k' = m.lookup k' := by
  induction m with
  | nil => rfl
  | cons hd tl ih =>
    obtain ⟨a, b⟩ := hd
    by_cases hh : a = k
    · simp [setKey, hh, List.lookup, beq_false_of_ne h, ih]
    · by_cases he : k' = a
      · simp [setKey, beq_false_of_ne hh, List.lookup, he]
      · simp [setKey, beq_false_of_ne hh, List.lookup, beq_false_of_ne he, ih]

theorem getValue_one (m : List (String × Value)) (k : String)
    (hk : splitOnChar '.' k = [k]) (hk0 : (k == "") = false) :
    getValue m k =
      match m.lookup k with
      | some v => .ok v
      | none => .error ("key " ++ k ++ " not found") := by
  rw [getValue, if_neg (by simp [hk0]), hk]
  rfl

theorem getString_one_ok (m : List (String × Value)) (k s : String)
    (hk : splitOnChar '.' k = [k]) (hk0 : (k == "") = false)
    (h : m.lookup k = some (.str s)) : getString m k = .ok s := by
  rw [getString, getValue_one m k hk hk0, h]

theorem getString_one_err (m : List (String × Value)) (k : String)
    (hk : splitOnChar '.' k = [k]) (hk0 : (k == "") = false)
    (h : ∀ s, m.lookup k ≠ some (.str s)) : ∃ e, getString m k = .error e := by
  rw [getString, getValue_one m k hk hk0]
  cases hl : m.lookup k with
  | none => exact ⟨_, rfl⟩
  | some v =>
    cases v with
    | str s => exact absurd hl (h s)
    | map f => exact ⟨_, rfl⟩
    | arr es => exact ⟨_, rfl⟩

theorem getMap_one_ok (m : List (String × Value)) (k : String)
    (mm : List (String × Value))
    (hk : splitOnChar '.' k = [k]) (hk0 : (k == "") = false)
    (h : m.lookup k = some (.map mm)) : getMap m k = .ok mm := by
  rw [getMap, getValue_one m k hk hk0, h]

theorem getMap_one_ok_inv (m : List (String × Value)) (k : String)
    (mm : List (String × Value))
    (hk : splitOnChar '.' k = [k]) (hk0 : (k == "") = false)
    (h : getMap m k = .ok mm) : m.lookup k = some (.map mm) := by
  rw [getMap, getValue_one m k hk hk0] at h
  cases hl : m.lookup k with
  | none => rw [hl] at h; cases h
  | some v =>
    rw [hl] at h
    cases v with
    | str s => cases h
    | arr es => cases h
    | map f => cases h; rfl

/-- C4: after sanitization, a Service object whose cluster IP field equals
the sentinel string `"None"` retains that exact value, and any other
Service object (whose cluster IP field, when present, is a string) has its
cluster IP field absent. -/
theorem prepareServiceResource_clusterIP (o o' : KObj)
    (hprep : prepareServiceResource o = .ok o')
    (hwf : ∀ v, clusterIPField o = some v → ∃ s, v = .str s) :
    (clusterIPField o = some (.str "None") → clusterIPField o' = some (.str "None")) ∧
    (clusterIPField o ≠ some (.str "None") → clusterIPField o' = none) := by
  cases hspec : getMap o.content "spec" with
  | error e =>
    rw [prepareServiceResource, hspec] at hprep
    exact absurd hprep (by simp)
  | ok spec =>
    have hmem : o.content.lookup "spec" = some (.map spec) :=
      getMap_one_ok_inv _ _ _ rfl rfl hspec
    simp only [prepareServiceResource, hspec] at hprep
    cases hlu : spec.lookup "clusterIP" with
    | none =>
      obtain ⟨e, herr⟩ :=
        getString_one_err spec "clusterIP" rfl rfl (by simp [hlu])
      simp only [herr] at hprep
      have ho : o = o' := by simpa using hprep
      subst ho
      constructor
      · intro hnone
        simp [clusterIPField, hspec, hlu] at hnone
      · intro _
        simp [clusterIPField, hspec, hlu]
    | some v =>
      obtain ⟨s, rfl⟩ := hwf v (by simp [clusterIPField, hspec, hlu])
      have hgs : getString spec "clusterIP" = .ok s :=
        getString_one_ok _ _ _ rfl rfl hlu
      simp only [hgs] at hprep
      by_cases hsN : s = "None"
      · subst hsN
        rw [if_neg (by simp)] at hprep
        have ho : o = o' := by simpa using hprep
        subst ho
        constructor
        · intro h
          exact h
        · intro h
          exact absurd (by simp [clusterIPField, hspec, hlu]) h
      · rw [if_pos (by simp [hsN])] at hprep
        have ho : (⟨setKey o.content "spec" (.map (eraseKey spec "clusterIP"))⟩ : KObj) = o' := by
          simpa using hprep
        subst ho
        have hspec' :
            getMap (setKey o.content "spec" (.map (eraseKey spec "clusterIP"))) "spec" =
              .ok (eraseKey spec "clusterIP") :=
          getMap_one_ok _ _ _ rfl rfl (lookup_setKey_self _ _ _ _ hmem)
        constructor
        · intro h
          simp [clusterIPField, hspec, hlu] at h
          exact absurd h hsN
        · intro _
          simp [clusterIPField, hspec', lookup_eraseKey_self]

/-- Witness for C4: concrete headless and non-headless services. -/
theorem prepareServiceResource_clusterIP_witness :
    clusterIPField objSvcHeadless = some (.str "None") ∧
      (prepareServiceResource objSvcHeadless = .ok objSvcHeadless ∧
        clusterIPField objSvcHeadless = some (.str "None")) :=
  ⟨rfl,
    rfl,
    (prepareServiceResource_clusterIP objSvcHeadless objSvcHeadless rfl
      (fun v hv => ⟨"None", by cases hv; rfl⟩)).1 rfl⟩

/-- C7: a PersistentVolumeClaim object (not already deduplicated, with a
successful typed fetch) is eligible iff its typed phase is `"Bound"` and
the driver's ownership predicate confirms the backend owns it. -/
theorem objectToBeCollected_pvc_spec (env : Env) (sels : List (String × String))
    (seen : List String) (o : KObj) (ns : String) (pvc : TypedPVC)
    (hk : o.kindOf = "PersistentVolumeClaim")
    (hs : seen.contains o.uidOf = false)
    (hget : env.getPVC o.nameOf ns = .ok pvc) :
    objectToBeCollected env sels seen o ns = .ok true ↔
      (pvc.phase = "Bound" ∧ env.ownsPVC pvc = true) := by
  simp only [objectToBeCollected, hs, hk, hget]
  by_cases hph : pvc.phase = "Bound"
  · by_cases how : env.ownsPVC pvc = true
    · simp [hph, how]
    · simp [hph, how]
  · simp [bne_iff_ne, hph]

/-- Witness for C7: the Bound, owned claim `data-pvc` is eligible. -/
theorem objectToBeCollected_pvc_witness :
    objPVC.kindOf = "PersistentVolumeClaim" ∧
      objectToBeCollected envTyped [] [] objPVC "ns1" = .ok true :=
  ⟨rfl, (objectToBeCollected_pvc_spec envTyped [] [] objPVC "ns1" pvcDataDb
    rfl rfl rfl).mpr ⟨rfl, rfl⟩⟩

/-- C8: a cluster-scoped ClusterRoleBinding object (not already
deduplicated, with a successful typed fetch) is eligible iff at least one
of its subjects references the target namespace. -/
theorem objectToBeCollected_crb_spec (env : Env) (sels : List (String × String))
    (seen : List String) (o : KObj) (ns : String) (crb : TypedCRB)
    (hk : o.kindOf = "ClusterRoleBinding")
    (hs : seen.contains o.uidOf = false)
    (hget : env.getCRB o.nameOf = .ok crb) :
    objectToBeCollected env sels seen o ns = .ok true ↔
      ∃ s ∈ crb.subjects, s.ns = ns := by
  simp only [objectToBeCollected, hs, hk, hget]
  simp [List.any_eq_true]

/-- Witness for C8 at the concrete binding `crb1` (subjects in `ns1` and
`ns3`) and the requested namespace `ns1`. -/
theorem objectToBeCollected_crb_witness :
    objCRB.kindOf = "ClusterRoleBinding" ∧
      objectToBeCollected envTyped [] [] objCRB "ns1" = .ok true :=
  ⟨rfl, (objectToBeCollected_crb_spec envTyped [] [] objCRB "ns1" crb1
    rfl rfl rfl).mpr ⟨⟨"ServiceAccount", "sa1", "ns1"⟩, by simp [crb1], rfl⟩⟩

theorem areLabels_nil (lbls : List (String × String)) :
    AreLabelsInWhiteList [] lbls = true := by
  by_cases h : lbls.isEmpty <;> simp [AreLabelsInWhiteList, h]

theorem areLabels_nonempty (sels lbls : List (String × String)) (h : lbls ≠ []) :
    AreLabelsInWhiteList sels lbls = true ↔
      ∀ p ∈ sels, lbls.lookup p.1 = some p.2 := by
  rw [AreLabelsInWhiteList, if_neg (by simp [List.isEmpty_iff, h]), List.all_eq_true]
  constructor
  · intro ha p hp
    have hv := ha p hp
    cases hl : lbls.lookup p.1 with
    | none => rw [hl] at hv; cases hv
    | some v =>
      rw [hl] at hv
      simp only [beq_iff_eq] at hv
      rw [hv]
  · intro ha p hp
    rw [ha p hp]
    simp

/-- C2: a PersistentVolume object (not already deduplicated) is eligible
for a target namespace iff its status phase is `"Bound"`, its spec carries
a claim reference with a non-empty name whose namespace equals the target
namespace, the referenced claim is fetched successfully and approved by
the ownership predicate, and, when the requested label selector is
non-empty, the claim carries at least one label and every selector
key/value pair appears in the claim's labels. -/
theorem objectToBeCollected_pv_spec (env : Env) (sels : List (String × String))
    (seen : List String) (o : KObj) (ns : String)
    (hk : o.kindOf = "PersistentVolume")
    (hs : seen.contains o.uidOf = false) :
    objectToBeCollected env sels seen o ns = .ok true ↔
      (getString o.content "status.phase" = .ok "Bound" ∧
       ∃ pvcName pvcNamespace pvc,
         getString o.content "spec.claimRef.name" = .ok pvcName ∧ pvcName ≠ "" ∧
         getString o.content "spec.claimRef.namespace" = .ok pvcNamespace ∧
         pvcNamespace = ns ∧
         env.getPVC pvcName pvcNamespace = .ok pvc ∧
         env.ownsPVC pvc = true ∧
         (sels ≠ [] → pvc.labels ≠ [] ∧
           ∀ p ∈ sels, pvc.labels.lookup p.1 = some p.2)) := by
  have hs' : o.uidOf ∉ seen := by simpa using hs
  cases hph : getString o.content "status.phase" with
  | error e => simp [objectToBeCollected, hs', hk, hph]
  | ok phase =>
    by_cases hb : phase = "Bound"
    case neg => simp [objectToBeCollected, hs', hk, hph, hb, Ne.symm hb]
    subst hb
    cases hnm : getString o.content "spec.claimRef.name" with
    | error e => simp [objectToBeCollected, hs', hk, hph, hnm]
    | ok pvcName =>
      by_cases hne : pvcName = ""
      case pos => simp [objectToBeCollected, hs', hk, hph, hnm, hne]
      cases hns : getString o.content "spec.claimRef.namespace" with
      | error e => simp [objectToBeCollected, hs', hk, hph, hnm, hne, hns]
      | ok pvcNamespace =>
        by_cases hnsm : pvcNamespace = ns
        case neg => simp [objectToBeCollected, hs', hk, hph, hnm, hne, hns, hnsm]
        subst hnsm
        cases hget : env.getPVC pvcName pvcNamespace with
        | error e => simp [objectToBeCollected, hs', hk, hph, hnm, hne, hns, hget]
        | ok pvc =>
          by_cases how : env.ownsPVC pvc = true
          case neg =>
            simp [objectToBeCollected, hs', hk, hph, hnm, hne, hns, hget, how]
          by_cases hsels : sels = []
          · simp [objectToBeCollected, hs', hk, hph, hnm, hne, hns, hget, how,
              hsels, areLabels_nil]
          by_cases hlb : pvc.labels = []
          · simp [objectToBeCollected, hs', hk, hph, hnm, hne, hns, hget, how,
              hsels, hlb, List.isEmpty_iff]
          by_cases hal : AreLabelsInWhiteList sels pvc.labels = true
          · have hp := (areLabels_nonempty sels pvc.labels hlb).mp hal
            simp [objectToBeCollected, hs', hk, hph, hnm, hne, hns, hget, how,
              hal, hsels, hlb, List.isEmpty_iff]
            exact fun a b hab => hp (a, b) hab
          · have hnp : ¬ ∀ p ∈ sels, pvc.labels.lookup p.1 = some p.2 :=
              fun hp => hal ((areLabels_nonempty sels pvc.labels hlb).mpr hp)
            push_neg at hnp
            obtain ⟨⟨a, b⟩, hpmem, hpne⟩ := hnp
            simp [objectToBeCollected, hs', hk, hph, hnm, hne, hns, hget, how,
              hal, hsels, hlb, List.isEmpty_iff]
            exact ⟨a, b, hpmem, hpne⟩

/-- Witness for C2: the concrete Bound volume bound to the owned, labelled
claim `ns1/data-pvc` is eligible under the selector `{app: db}`. -/
theorem objectToBeCollected_pv_witness :
    objPV.kindOf = "PersistentVolume" ∧
      objectToBeCollected envTyped [("app", "db")] [] objPV "ns1" = .ok true :=
  ⟨rfl, (objectToBeCollected_pv_spec envTyped [("app", "db")] [] objPV "ns1"
    rfl rfl).mpr ⟨rfl, "data-pvc", "ns1", pvcDataDb, rfl, by decide, rfl, rfl,
      rfl, rfl, fun _ => ⟨by decide, by decide⟩⟩⟩

theorem preparePVResource_lookup_ne (o o' : KObj) (k : String) (hk : k ≠ "spec")
    (h : preparePVResource o = .ok o') : o'.content.lookup k = o.content.lookup k := by
  cases hspec : getMap o.content "spec" with
  | error e => rw [preparePVResource, hspec] at h; cases h
  | ok spec =>
    simp only [preparePVResource, hspec] at h
    cases h
    exact lookup_setKey_ne _ _ _ _ hk

theorem prepareServiceResource_lookup_ne (o o' : KObj) (k : String) (hk : k ≠ "spec")
    (h : prepareServiceResource o = .ok o') : o'.content.lookup k = o.content.lookup k := by
  cases hspec : getMap o.content "spec" with
  | error e => rw [prepareServiceResource, hspec] at h; cases h
  | ok spec =>
    simp only [prepareServiceResource, hspec] at h
    cases hgs : getString spec "clusterIP" with
    | error e =>
      simp only [hgs] at h
      cases h
      rfl
    | ok ip =>
      simp only [hgs] at h
      by_cases hip : ip = "None"
      · rw [if_neg (by simp [hip])] at h
        cases h
        rfl
      · rw [if_pos (by simp [hip])] at h
        cases h
        exact lookup_setKey_ne _ _ _ _ hk

theorem prepareKindSpecific_lookup_ne (o o' : KObj) (k : String) (hk : k ≠ "spec")
    (h : prepareKindSpecific o = .ok o') : o'.content.lookup k = o.content.lookup k := by
  rw [prepareKindSpecific] at h
  by_cases hpv : (o.kindOf == "PersistentVolume") = true
  · rw [if_pos hpv] at h
    exact preparePVResource_lookup_ne o o' k hk h
  · rw [if_neg (by simpa using hpv)] at h
    by_cases hsvc : (o.kindOf == "Service") = true
    · rw [if_pos hsvc] at h
      exact prepareServiceResource_lookup_ne o o' k hk h
    · rw [if_neg (by simpa using hsvc)] at h
      cases h
      rfl

theorem mem_keys_filter (md : List (String × Value)) (p : String → Bool) (k : String) :
    k ∈ (md.filter (fun kv => p kv.1)).map Prod.fst ↔
      (k ∈ md.map Prod.fst ∧ p k = true) := by
  constructor
  · intro h
    obtain ⟨⟨a, b⟩, hmem, rfl⟩ := List.mem_map.mp h
    have hf := List.mem_filter.mp hmem
    exact ⟨List.mem_map.mpr ⟨(a, b), hf.1, rfl⟩, hf.2⟩
  · rintro ⟨hmem, hp⟩
    obtain ⟨⟨a, b⟩, hmem', rfl⟩ := List.mem_map.mp hmem
    exact List.mem_map.mpr ⟨(a, b), List.mem_filter.mpr ⟨hmem', hp⟩, rfl⟩

theorem prepareObject_sanitizes (o o' : KObj) (h : prepareObject o = .ok o') :
    o'.content.lookup "status" = none ∧
    ∃ md, getMap o.content "metadata" = .ok md ∧
      getMap o'.content "metadata" =
        .ok (md.filter (fun kv => metadataWhitelisted kv.1)) := by
  rw [prepareObject] at h
  cases hx : prepareKindSpecific ⟨eraseKey o.content "status"⟩ with
  | error e => rw [hx] at h; cases h
  | ok o2 =>
    simp only [hx] at h
    have hpres : ∀ k, k ≠ "spec" →
        o2.content.lookup k = (eraseKey o.content "status").lookup k :=
      fun k hk => prepareKindSpecific_lookup_ne _ o2 k hk hx
    cases hmd : getMap o2.content "metadata" with
    | error e => rw [hmd] at h; cases h
    | ok md =>
      simp only [hmd] at h
      have ho' : (⟨setKey o2.content "metadata"
          (.map (md.filter (fun kv => metadataWhitelisted kv.1)))⟩ : KObj) = o' := by
        simpa using h
      subst ho'
      have hmdmem : o2.content.lookup "metadata" = some (.map md) :=
        getMap_one_ok_inv _ _ _ rfl rfl hmd
      refine ⟨?_, md, ?_, ?_⟩
      · rw [lookup_setKey_ne _ _ _ _ (by decide), hpres "status" (by decide)]
        exact lookup_eraseKey_self _ _
      · apply getMap_one_ok o.content "metadata" md rfl rfl
        have h1 := hpres "metadata" (by decide)
        rw [h1, lookup_eraseKey_ne _ _ _ (by decide)] at hmdmem
        exact hmdmem
      · exact getMap_one_ok _ _ _ rfl rfl (lookup_setKey_self _ _ _ _ hmdmem)

/-- C3: for every object in the sanitized output of `prepareResources`,
the `status` subtree is absent, and the object's metadata keys are exactly
the subset of {name, namespace, labels, annotations} present in the
corresponding input object's metadata. -/
theorem prepareResources_sanitizes (objs objs' : List KObj)
    (h : prepareResources objs = .ok objs') :
    ∀ o' ∈ objs', o'.content.lookup "status" = none ∧
      ∃ o ∈ objs, ∃ md md',
        getMap o.content "metadata" = .ok md ∧
        getMap o'.content "metadata" = .ok md' ∧
        ∀ k, k ∈ md'.map Prod.fst ↔
          (k ∈ md.map Prod.fst ∧ metadataWhitelisted k = true) := by
  induction objs generalizing objs' with
  | nil =>
    rw [prepareResources] at h
    cases h
    intro o' ho'
    cases ho'
  | cons o rest ih =>
    rw [prepareResources] at h
    cases hpo : prepareObject o with
    | error e => rw [hpo] at h; cases h
    | ok o1 =>
      simp only [hpo] at h
      cases hrest : prepareResources rest with
      | error e => rw [hrest] at h; cases h
      | ok rest' =>
        simp only [hrest] at h
        have hcons : o1 :: rest' = objs' := by simpa using h
        subst hcons
        intro o' ho'
        rcases List.mem_cons.mp ho' with rfl | hmem
        · obtain ⟨hst, md, hmd, hmd'⟩ := prepareObject_sanitizes o o' hpo
          exact ⟨hst, o, List.mem_cons_self o rest, md,
            md.filter (fun kv => metadataWhitelisted kv.1), hmd, hmd',
            fun k => mem_keys_filter md metadataWhitelisted k⟩
        · obtain ⟨hst, oo, hoo, md, md', hmd, hmd', hkeys⟩ := ih rest' hrest o' hmem
          exact ⟨hst, oo, List.mem_cons_of_mem o hoo, md, md', hmd, hmd', hkeys⟩


/-- Witness for C3: sanitizing a concrete Service with a status, a cluster
IP, and extra metadata fields. -/
theorem prepareResources_sanitizes_witness :
    prepareResources [objSvcClusterIP] = .ok [objSvcPrepared] ∧
      (objSvcPrepared.content.lookup "status" = none ∧
        ∃ o ∈ [objSvcClusterIP], ∃ md md',
          getMap o.content "metadata" = .ok md ∧
          getMap objSvcPrepared.content "metadata" = .ok md' ∧
          ∀ k, k ∈ md'.map Prod.fst ↔
            (k ∈ md.map Prod.fst ∧ metadataWhitelisted k = true)) :=
  ⟨rfl, prepareResources_sanitizes [objSvcClusterIP] [objSvcPrepared] rfl
    objSvcPrepared (by simp)⟩

theorem selectorFor_eq (r : APIResource) (sels : List (String × String)) :
    selectorFor r sels =
      if r.kind == "PersistentVolume" then "" else labelsSetString sels := by
  by_cases h : r.kind = "PersistentVolume" <;> simp [selectorFor, h]

theorem processNamespaces_log (env : Env) (sels : List (String × String))
    (gv : String × String) (r : APIResource) (nss : List String)
    (seen : List String) (acc : List KObj) (log : List ListCall)
    (seen' : List String) (acc' : List KObj) (log' : List ListCall)
    (h : processNamespaces env sels gv r nss seen acc log = .ok (seen', acc', log'))
    (hlog : ∀ c ∈ log, c.selector =
      if c.resourceKind == "PersistentVolume" then "" else labelsSetString sels) :
    ∀ c ∈ log', c.selector =
      if c.resourceKind == "PersistentVolume" then "" else labelsSetString sels := by
  induction nss generalizing seen acc log with
  | nil =>
    rw [processNamespaces] at h
    cases h
    exact hlog
  | cons ns rest ih =>
    rw [processNamespaces] at h
    cases hl : env.list gv r.name (nsArgFor r ns) (selectorFor r sels) with
    | error e => rw [hl] at h; cases h
    | ok objs =>
      simp only [hl] at h
      cases hpo : processObjects env sels ns objs seen acc with
      | error e => rw [hpo] at h; cases h
      | ok st =>
        obtain ⟨seen1, acc1⟩ := st
        simp only [hpo] at h
        refine ih seen1 acc1 _ h ?_
        intro c hc
        rcases List.mem_append.mp hc with hc | hc
        · exact hlog c hc
        · rcases List.mem_singleton.mp hc with rfl
          simpa using selectorFor_eq r sels

theorem processResources_log (env : Env) (sels : List (String × String))
    (nss : List String) (gv : String × String) (rs : List APIResource)
    (seen : List String) (acc : List KObj) (log : List ListCall)
    (seen' : List String) (acc' : List KObj) (log' : List ListCall)
    (h : processResources env sels nss gv rs seen acc log = .ok (seen', acc', log'))
    (hlog : ∀ c ∈ log, c.selector =
      if c.resourceKind == "PersistentVolume" then "" else labelsSetString sels) :
    ∀ c ∈ log', c.selector =
      if c.resourceKind == "PersistentVolume" then "" else labelsSetString sels := by
  induction rs generalizing seen acc log with
  | nil =>
    rw [processResources] at h
    cases h
    exact hlog
  | cons r rest ih =>
    rw [processResources] at h
    by_cases hr : resourceToBeCollected r = true
    · rw [if_pos hr] at h
      cases hpn : processNamespaces env sels gv r nss seen acc log with
      | error e => rw [hpn] at h; cases h
      | ok st =>
        obtain ⟨seen1, acc1, log1⟩ := st
        simp only [hpn] at h
        exact ih seen1 acc1 log1 h
          (processNamespaces_log env sels gv r nss seen acc log seen1 acc1 log1 hpn hlog)
    · rw [if_neg hr] at h
      exact ih seen acc log h hlog

theorem processGroup_log (env : Env) (sels : List (String × String))
    (nss : List String) (g : APIGroup)
    (acc : List KObj) (log : List ListCall)
    (acc' : List KObj) (log' : List ListCall)
    (h : processGroup env sels nss g acc log = .ok (acc', log'))
    (hlog : ∀ c ∈ log, c.selector =
      if c.resourceKind == "PersistentVolume" then "" else labelsSetString sels) :
    ∀ c ∈ log', c.selector =
      if c.resourceKind == "PersistentVolume" then "" else labelsSetString sels := by
  rw [processGroup] at h
  cases hp : ParseGroupVersion g.groupVersion with
  | error e => rw [hp] at h; cases h
  | ok gv =>
    simp only [hp] at h
    by_cases hext : (gv.1 == "extensions") = true
    · rw [if_pos hext] at h
      have h2 : acc = acc' ∧ log = log' := by simpa using h
      obtain ⟨rfl, rfl⟩ := h2
      exact hlog
    · rw [if_neg hext] at h
      cases hpr : processResources env sels nss gv g.resources [] acc log with
      | error e => rw [hpr] at h; cases h
      | ok st2 =>
        obtain ⟨seen2, acc2, log2⟩ := st2
        simp only [hpr] at h
        have h2 : acc2 = acc' ∧ log2 = log' := by simpa using h
        obtain ⟨rfl, rfl⟩ := h2
        exact processResources_log env sels nss gv g.resources [] acc log
          seen2 _ _ hpr hlog

theorem foldGroups_log (env : Env) (sels : List (String × String))
    (nss : List String) (gs : List APIGroup)
    (acc : List KObj) (log : List ListCall)
    (acc' : List KObj) (log' : List ListCall)
    (h : foldGroups env sels nss gs acc log = .ok (acc', log'))
    (hlog : ∀ c ∈ log, c.selector =
      if c.resourceKind == "PersistentVolume" then "" else labelsSetString sels) :
    ∀ c ∈ log', c.selector =
      if c.resourceKind == "PersistentVolume" then "" else labelsSetString sels := by
  induction gs generalizing acc log with
  | nil =>
    rw [foldGroups] at h
    cases h
    exact hlog
  | cons g rest ih =>
    rw [foldGroups] at h
    cases hg : processGroup env sels nss g acc log with
    | error e => rw [hg] at h; cases h
    | ok st =>
      obtain ⟨acc1, log1⟩ := st
      simp only [hg] at h
      exact ih acc1 log1 h
        (processGroup_log env sels nss g acc log acc1 log1 hg hlog)

/-- C9: in the collection loop, every list call for a kind other than
PersistentVolume carries the formatted requested label selector, while
every list call for the PersistentVolume kind carries the empty selector
string (no selector at all). -/
theorem getResources_selector_rule (env : Env) (nss : List String)
    (sels : List (String × String)) (os : List KObj) (log : List ListCall)
    (h : getResourcesTraced env nss sels = .ok (os, log)) :
    ∀ c ∈ log, c.selector =
      if c.resourceKind == "PersistentVolume" then "" else labelsSetString sels := by
  rw [getResourcesTraced] at h
  cases hr : env.refresh with
  | error e => rw [hr] at h; cases h
  | ok u =>
    simp only [hr] at h
    exact foldGroups_log env sels nss env.groups [] [] os log h (by intro c hc; cases hc)

/-- Witness for C9: both logged ConfigMap list calls of a concrete run
carry the formatted (empty) selector. -/
theorem getResources_selector_rule_witness :
    getResourcesTraced envDup ["ns1"] [] =
      .ok ([objCM, objCM],
        [⟨"g1", "v1", "configmaps", "ConfigMap", some "ns1", ""⟩,
         ⟨"g2", "v1", "configmaps", "ConfigMap", some "ns1", ""⟩]) ∧
      (⟨"g1", "v1", "configmaps", "ConfigMap", some "ns1", ""⟩ : ListCall).selector =
        (if (⟨"g1", "v1", "configmaps", "ConfigMap", some "ns1", ""⟩ : ListCall).resourceKind ==
            "PersistentVolume" then "" else labelsSetString []) :=
  ⟨rfl,
    getResources_selector_rule envDup ["ns1"] [] [objCM, objCM]
      [⟨"g1", "v1", "configmaps", "ConfigMap", some "ns1", ""⟩,
       ⟨"g2", "v1", "configmaps", "ConfigMap", some "ns1", ""⟩] rfl
      ⟨"g1", "v1", "configmaps", "ConfigMap", some "ns1", ""⟩ (by simp)⟩

theorem foldGroups_append (env : Env) (sels : List (String × String))
    (nss : List String) (gs1 gs2 : List APIGroup)
    (acc : List KObj) (log : List ListCall) :
    foldGroups env sels nss (gs1 ++ gs2) acc log =
      match foldGroups env sels nss gs1 acc log with
      | .error e => .error e
      | .ok (acc1, log1) => foldGroups env sels nss gs2 acc1 log1 := by
  induction gs1 generalizing acc log with
  | nil => rfl
  | cons g rest ih =>
    rw [List.cons_append, foldGroups]
    cases hg : processGroup env sels nss g acc log with
    | error e =>
      conv_rhs => rw [foldGroups, hg]
    | ok st =>
      obtain ⟨acc1, log1⟩ := st
      conv_rhs => rw [foldGroups, hg]
      exact ih acc1 log1

/-- C6: errors abort the whole `GetResources` call and surface to the
caller with no partial results: a refresh error is returned as-is; a
`processGroup` error after any successfully processed prefix of groups is
returned as-is; a list-call error at any namespace position aborts the
namespace loop; and an inclusion-predicate error at any object position
aborts the object loop, wrapped exactly as in the source. The `Except`
result carries no objects in the error case. -/
theorem GetResources_fail_fast (env : Env) (nss : List String)
    (sels : List (String × String)) :
    (∀ e, env.refresh = .error e → GetResources env nss sels = .error e) ∧
    (∀ gs1 g gs2 acc1 log1 e, env.groups = gs1 ++ g :: gs2 →
      env.refresh = .ok () →
      foldGroups env sels nss gs1 [] [] = .ok (acc1, log1) →
      processGroup env sels nss g acc1 log1 = .error e →
      GetResources env nss sels = .error e) ∧
    (∀ gv r nss1 ns nss2 seen acc log st e,
      processNamespaces env sels gv r nss1 seen acc log = .ok st →
      env.list gv r.name (nsArgFor r ns) (selectorFor r sels) = .error e →
      processNamespaces env sels gv r (nss1 ++ ns :: nss2) seen acc log = .error e) ∧
    (∀ ns objs1 o objs2 seen acc seen1 acc1 e,
      processObjects env sels ns objs1 seen acc = .ok (seen1, acc1) →
      objectToBeCollected env sels seen1 o ns = .error e →
      processObjects env sels ns (objs1 ++ o :: objs2) seen acc =
        .error ("Error processing object: " ++ e)) := by
  refine ⟨?_, ?_, ?_, ?_⟩
  · intro e he
    rw [GetResources, getResourcesTraced, he]
    rfl
  · intro gs1 g gs2 acc1 log1 e hgroups hrefresh h1 h2
    simp only [GetResources, getResourcesTraced, hrefresh, hgroups,
      foldGroups_append, h1]
    rw [foldGroups, h2]
    rfl
  · intro gv r nss1 ns nss2 seen acc log st e h1 h2
    induction nss1 generalizing seen acc log with
    | nil =>
      rw [processNamespaces] at h1
      cases h1
      rw [List.nil_append, processNamespaces, h2]
    | cons ns0 rest ih =>
      rw [processNamespaces] at h1
      cases hl : env.list gv r.name (nsArgFor r ns0) (selectorFor r sels) with
      | error e0 => rw [hl] at h1; cases h1
      | ok objs =>
        simp only [hl] at h1
        cases hpo : processObjects env sels ns0 objs seen acc with
        | error e0 => rw [hpo] at h1; cases h1
        | ok st0 =>
          obtain ⟨seen1, acc1⟩ := st0
          simp only [hpo] at h1
          rw [List.cons_append, processNamespaces]
          simp only [hl, hpo]
          exact ih seen1 acc1 _ h1
  · intro ns objs1 o objs2 seen acc seen1 acc1 e h1 h2
    induction objs1 generalizing seen acc with
    | nil =>
      rw [processObjects] at h1
      have hse : seen = seen1 ∧ acc = acc1 := by
        have := h1
        simp only [Except.ok.injEq, Prod.mk.injEq] at this
        exact this
      obtain ⟨rfl, rfl⟩ := hse
      rw [List.nil_append, processObjects, h2]
    | cons o1 rest ih =>
      rw [processObjects] at h1
      cases hc : objectToBeCollected env sels seen o1 ns with
      | error e0 => rw [hc] at h1; cases h1
      | ok b =>
        simp only [hc] at h1
        rw [List.cons_append, processObjects]
        simp only [hc]
        cases b with
        | false => exact ih seen acc h1
        | true => exact ih (o1.uidOf :: seen) (acc ++ [o1]) h1

/-- Witness for C6: a failing discovery refresh aborts the whole call with
that error. -/
theorem GetResources_fail_fast_witness :
    envRefreshFail.refresh = .error "the server is unreachable" ∧
      GetResources envRefreshFail ["ns1"] [] = .error "the server is unreachable" :=
  ⟨rfl, (GetResources_fail_fast envRefreshFail ["ns1"] []).1
    "the server is unreachable" rfl⟩

theorem NewObjsOK_nil (seen : List String) : NewObjsOK seen seen [] :=
  ⟨List.nodup_nil, fun _ hu => hu, fun _ ho => absurd ho (List.not_mem_nil _)⟩

theorem NewObjsOK_comp (s t u : List String) (n1 n2 : List KObj)
    (h1 : NewObjsOK s t n1) (h2 : NewObjsOK t u n2) :
    NewObjsOK s u (n1 ++ n2) := by
  obtain ⟨hnd1, hgrow1, hmem1⟩ := h1
  obtain ⟨hnd2, hgrow2, hmem2⟩ := h2
  refine ⟨?_, fun a ha => hgrow2 a (hgrow1 a ha), ?_⟩
  · rw [List.map_append, List.nodup_append]
    refine ⟨hnd1, hnd2, ?_⟩
    intro a ha1 ha2
    obtain ⟨o1, ho1, rfl⟩ := List.mem_map.mp ha1
    obtain ⟨o2, ho2, huid⟩ := List.mem_map.mp ha2
    exact (hmem2 o2 ho2).2 (huid ▸ (hmem1 o1 ho1).1)
  · intro o ho
    rcases List.mem_append.mp ho with ho | ho
    · exact ⟨hgrow2 _ (hmem1 o ho).1, (hmem1 o ho).2⟩
    · exact ⟨(hmem2 o ho).1, fun hs => (hmem2 o ho).2 (hgrow1 _ hs)⟩

theorem collected_not_seen (env : Env) (sels : List (String × String))
    (seen : List String) (o : KObj) (ns : String)
    (h : objectToBeCollected env sels seen o ns = .ok true) :
    o.uidOf ∉ seen := by
  intro hmem
  rw [objectToBeCollected, if_pos (by simpa using hmem)] at h
  cases h

theorem processObjects_newobjs (env : Env) (sels : List (String × String))
    (ns : String) (objs : List KObj) (seen : List String) (acc : List KObj)
    (seen' : List String) (acc' : List KObj)
    (h : processObjects env sels ns objs seen acc = .ok (seen', acc')) :
    ∃ new, acc' = acc ++ new ∧ NewObjsOK seen seen' new := by
  induction objs generalizing seen acc with
  | nil =>
    rw [processObjects] at h
    have hse : seen = seen' ∧ acc = acc' := by
      simpa [Prod.ext_iff] using h
    obtain ⟨rfl, rfl⟩ := hse
    exact ⟨[], by simp, NewObjsOK_nil seen⟩
  | cons o rest ih =>
    rw [processObjects] at h
    cases hc : objectToBeCollected env sels seen o ns with
    | error e => rw [hc] at h; cases h
    | ok b =>
      simp only [hc] at h
      cases b with
      | false => exact ih seen acc h
      | true =>
        obtain ⟨new, hacc, hok⟩ := ih (o.uidOf :: seen) (acc ++ [o]) h
        obtain ⟨hnd, hgrow, hmem⟩ := hok
        have hnotseen : o.uidOf ∉ seen := collected_not_seen env sels seen o ns hc
        refine ⟨o :: new, by simpa [List.append_assoc] using hacc, ?_, ?_, ?_⟩
        · rw [List.map_cons, List.nodup_cons]
          refine ⟨?_, hnd⟩
          intro hin
          obtain ⟨o2, ho2, huid⟩ := List.mem_map.mp hin
          exact (hmem o2 ho2).2 (huid ▸ List.mem_cons_self _ _)
        · exact fun a ha => hgrow a (List.mem_cons_of_mem _ ha)
        · intro o2 ho2
          rcases List.mem_cons.mp ho2 with rfl | ho2
          · exact ⟨hgrow _ (List.mem_cons_self _ _), hnotseen⟩
          · exact ⟨(hmem o2 ho2).1, fun hs => (hmem o2 ho2).2 (List.mem_cons_of_mem _ hs)⟩

theorem processNamespaces_newobjs (env : Env) (sels : List (String × String))
    (gv : String × String) (r : APIResource) (nss : List String)
    (seen : List String) (acc : List KObj) (log : List ListCall)
    (seen' : List String) (acc' : List KObj) (log' : List ListCall)
    (h : processNamespaces env sels gv r nss seen acc log = .ok (seen', acc', log')) :
    ∃ new, acc' = acc ++ new ∧ NewObjsOK seen seen' new := by
  induction nss generalizing seen acc log with
  | nil =>
    rw [processNamespaces] at h
    have hse : seen = seen' ∧ acc = acc' ∧ log = log' := by
      simpa [Prod.ext_iff] using h
    obtain ⟨rfl, rfl, rfl⟩ := hse
    exact ⟨[], by simp, NewObjsOK_nil seen⟩
  | cons ns rest ih =>
    rw [processNamespaces] at h
    cases hl : env.list gv r.name (nsArgFor r ns) (selectorFor r sels) with
    | error e => rw [hl] at h; cases h
    | ok objs =>
      simp only [hl] at h
      cases hpo : processObjects env sels ns objs seen acc with
      | error e => rw [hpo] at h; cases h
      | ok st0 =>
        obtain ⟨seen1, acc1⟩ := st0
        simp only [hpo] at h
        obtain ⟨new1, hacc1, hok1⟩ :=
          processObjects_newobjs env sels ns objs seen acc seen1 acc1 hpo
        obtain ⟨new2, hacc2, hok2⟩ := ih seen1 acc1 _ h
        exact ⟨new1 ++ new2, by rw [hacc2, hacc1, List.append_assoc],
          NewObjsOK_comp seen seen1 seen' new1 new2 hok1 hok2⟩

theorem processResources_newobjs (env : Env) (sels : List (String × String))
    (nss : List String) (gv : String × String) (rs : List APIResource)
    (seen : List String) (acc : List KObj) (log : List ListCall)
    (seen' : List String) (acc' : List KObj) (log' : List ListCall)
    (h : processResources env sels nss gv rs seen acc log = .ok (seen', acc', log')) :
    ∃ new, acc' = acc ++ new ∧ NewObjsOK seen seen' new := by
  induction rs generalizing seen acc log with
  | nil =>
    rw [processResources] at h
    have hse : seen = seen' ∧ acc = acc' ∧ log = log' := by
      simpa [Prod.ext_iff] using h
    obtain ⟨rfl, rfl, rfl⟩ := hse
    exact ⟨[], by simp, NewObjsOK_nil seen⟩
  | cons r rest ih =>
    rw [processResources] at h
    by_cases hr : resourceToBeCollected r = true
    · rw [if_pos hr] at h
      cases hpn : processNamespaces env sels gv r nss seen acc log with
      | error e => rw [hpn] at h; cases h
      | ok st0 =>
        obtain ⟨seen1, acc1, log1⟩ := st0
        simp only [hpn] at h
        obtain ⟨new1, hacc1, hok1⟩ :=
          processNamespaces_newobjs env sels gv r nss seen acc log seen1 acc1 log1 hpn
        obtain ⟨new2, hacc2, hok2⟩ := ih seen1 acc1 log1 h
        exact ⟨new1 ++ new2, by rw [hacc2, hacc1, List.append_assoc],
          NewObjsOK_comp seen seen1 seen' new1 new2 hok1 hok2⟩
    · rw [if_neg hr] at h
      exact ih seen acc log h

/-- C1 (amended): the seen-set (`resourceMap`) is created afresh for each
group/version and shared across all kinds and namespaces within that
group, so the objects appended while processing a single group have
pairwise-distinct uids. Deduplication does not extend across groups. -/
theorem processGroup_dedup (env : Env) (sels : List (String × String))
    (nss : List String) (g : APIGroup) (acc : List KObj) (log : List ListCall)
    (acc' : List KObj) (log' : List ListCall)
    (h : processGroup env sels nss g acc log = .ok (acc', log')) :
    ∃ new, acc' = acc ++ new ∧ (new.map KObj.uidOf).Nodup := by
  rw [processGroup] at h
  cases hp : ParseGroupVersion g.groupVersion with
  | error e => rw [hp] at h; cases h
  | ok gv =>
    simp only [hp] at h
    by_cases hext : (gv.1 == "extensions") = true
    · rw [if_pos hext] at h
      have hse : acc = acc' ∧ log = log' := by simpa using h
      obtain ⟨rfl, rfl⟩ := hse
      exact ⟨[], by simp, List.nodup_nil⟩
    · rw [if_neg hext] at h
      cases hpr : processResources env sels nss gv g.resources [] acc log with
      | error e => rw [hpr] at h; cases h
      | ok st0 =>
        obtain ⟨seen1, acc1, log1⟩ := st0
        simp only [hpr] at h
        have hse : acc1 = acc' ∧ log1 = log' := by simpa using h
        obtain ⟨rfl, rfl⟩ := hse
        obtain ⟨new, hacc, hok⟩ :=
          processResources_newobjs env sels nss gv g.resources [] acc log
            seen1 _ _ hpr
        exact ⟨new, hacc, hok.1⟩

/-- C1 counterexample: with the same ConfigMap kind discovered under two
different group/versions, both listings returning the same object (uid
`u1`), `GetResources` returns that uid twice — the seen set is not shared
across groups. -/
theorem GetResources_cross_group_duplicate :
    GetResources envDup ["ns1"] [] = .ok [objCM, objCM] ∧
      (GetResources envDup ["ns1"] []).map
        (fun os => (os.map KObj.uidOf).count "u1") = .ok 2 :=
  ⟨rfl, rfl⟩

/-- Witness for the amended C1 at a concrete group. -/
theorem processGroup_dedup_witness :
    processGroup envDup [] ["ns1"] ⟨"g1/v1", [resCM]⟩ [] [] =
      .ok ([objCM], [⟨"g1", "v1", "configmaps", "ConfigMap", some "ns1", ""⟩]) ∧
      ∃ new, [objCM] = [] ++ new ∧ (new.map KObj.uidOf).Nodup :=
  ⟨rfl, processGroup_dedup envDup [] ["ns1"] ⟨"g1/v1", [resCM]⟩ [] []
    [objCM] [⟨"g1", "v1", "configmaps", "ConfigMap", some "ns1", ""⟩] rfl⟩
